import Mathlib

/-!
# Verification of the RSS article importer

A shallow embedding, in Lean 4, of the core logic of a small RSS-import
service (an Express app built around a single `RssModule` class), together
with theorems settling the specification's claims about it.

The embedded operations are:

* `wordWithMostVowels` — the derived "word with most vowels" text feature
  attached to each article at read time;
* `isValidUrl` / `isSupportedFeed` — the URL validator and feed allow-list;
* `saveImportRequest` — the import reconciler: ledger write, then the
  per-entry insert-or-update (upsert) loop against the `articles` table;
* `importOp` — the `import` method: URL resolution and validation, fetch,
  optional save, and the `try`/`catch`/`finally { return results }` shape.

Storage (PostgreSQL) is modelled as an explicit `DB` state: the `articles`
and `imports` tables as lists of rows, fresh surrogate ids as counters, and
the number of checked-out pool connections as a counter (`held`).  The two
Postgres error classes the code distinguishes — unique violation `"23505"`
and not-null violation `"23502"` — are modelled by `PgError`.  External
capabilities (the WHATWG `new URL` parser, the RSS fetch) are passed in as
explicit oracles, since they are not code of this repository.
-/

/-! ## The vowel-word feature (`wordWithMostVowels`) -/

/-- The constant `vowels` array of the source: `['a','e','i','o','u','y']`.
Lower-case letters only, exactly as in the code. -/
def vowels : List Char := ['a', 'e', 'i', 'o', 'u', 'y']

/-- Number of letters of `w` that are in `vowels` — the inner
`for (let letter of word)` counting loop of `wordWithMostVowels`. -/
def vowelCount (w : String) : Nat :=
  w.data.countP (fun c => vowels.contains c)

/-- Split a character list at every separator character, keeping empty
fragments — the semantics of JavaScript `String.prototype.split` with a
single-character separator (`"".split(' ') = [""]`,
`"a  b".split(' ') = ["a","","b"]`).  `acc` holds the characters of the
current fragment in reverse. -/
def splitByAux (p : Char → Bool) : List Char → List Char → List String
  | [], acc => [String.mk acc.reverse]
  | c :: cs, acc =>
    if p c then String.mk acc.reverse :: splitByAux p cs []
    else splitByAux p cs (c :: acc)

/-- Split a string at every character satisfying `p`, keeping empty
fragments. -/
def splitBy (p : Char → Bool) (s : String) : List String :=
  splitByAux p s.data []

/-- One iteration of the `for (let word of words)` loop of
`wordWithMostVowels`: the state is the pair
`(wordWithMostVowels, mostVowels)` of the source. -/
def wordFold (st : String × Nat) (w : String) : String × Nat :=
  let vc := vowelCount w
  if vc > st.2 then (w, vc)
  else if vc = st.2 ∧ st.1.length < w.length then (w, st.2)
  else st

/-- The source method `RssModule.wordWithMostVowels`: split the title on the space character
(JavaScript `title.split(' ')`, which keeps empty fragments), then run the
counting loop starting from `('', 0)`. -/
def wordWithMostVowels (title : String) : String :=
  ((splitBy (fun c => c = ' ') title).foldl wordFold ("", 0)).1

/-! ### Spec-side selection, from the claim's words

The claim describes the selection extensionally: the word with the highest
vowel count wins; on a count tie the strictly longer word wins; if lengths
are also equal the first-seen word wins.  The following definitions state
that selection directly (maximal count, then first word of maximal length
among the words attaining the maximal count). -/

/-- Largest vowel count occurring in a list of words (`0` for `[]`). -/
def maxVowelCount : List String → Nat
  | [] => 0
  | w :: ws => max (vowelCount w) (maxVowelCount ws)

/-- Largest word length occurring in a list of words (`0` for `[]`). -/
def maxLen : List String → Nat
  | [] => 0
  | w :: ws => max w.length (maxLen ws)

/-- The words attaining the maximal vowel count of the list. -/
def candidates (ws : List String) : List String :=
  ws.filter (fun w => vowelCount w = maxVowelCount ws)

/-- The first word of maximal length in a list (`""` for `[]`). -/
def firstWithMaxLen (ws : List String) : String :=
  (ws.find? (fun w => w.length = maxLen ws)).getD ""

/-- The claim's description of the feature, taken at its word: split the
title on *whitespace* (every whitespace character is a separator), then
select by maximal vowel count, breaking ties by maximal length, first-seen
first. -/
def wordWithMostVowelsSpec (title : String) : String :=
  firstWithMaxLen (candidates (splitBy (fun c => c.isWhitespace) title))

/-- Filter at an explicit vowel-count threshold (used to reason about
`candidates`, whose threshold is computed from the whole list). -/
def candAt (t : Nat) (ws : List String) : List String :=
  ws.filter (fun w => vowelCount w = t)

/-- First word at an explicit length threshold (used to reason about
`firstWithMaxLen`). -/
def firstAt (l : Nat) (ws : List String) : String :=
  (ws.find? (fun w => w.length = l)).getD ""

/-! ## JavaScript values and the feed validator -/

/-- The JavaScript values that can reach `isValidUrl`, whose parameter is
typed `any` in the source. -/
inductive JsValue
  | nullV
  | undef
  | boolV (b : Bool)
  | num (n : Int)
  | str (s : String)
  deriving DecidableEq, Repr

/-- The source field `RssModule.supportedRssFeeds`: the fixed allow-list of feed URLs. -/
def supportedRssFeeds : List String :=
  ["https://www.lemonde.fr/rss/une.xml",
   "https://www.theguardian.com/world/europe-news/rss"]

/-- The source method `RssModule.isSupportedFeed`: exact-string membership in the allow-list
(JavaScript `Array.prototype.includes`). -/
def isSupportedFeed (feedUrl : String) : Bool :=
  supportedRssFeeds.contains feedUrl

/-- JavaScript `String.prototype.startsWith`: `pre` is a prefix of `s`. -/
def strStartsWith (s pre : String) : Bool :=
  pre.data.isPrefixOf s.data

/-- The source method `RssModule.isValidUrl`.  The WHATWG `new URL` constructor is an external
capability, passed in as the oracle `parseURL` (its `Except.error` is the
exception it may throw).  The result type is `Except String Bool` because
the body invokes a throwing operation: `.ok` is a normal boolean return,
`.error` would be an exception escaping the function.  The source's
`try`/`catch` is the `match` on `parseURL s`: a parse failure is caught and
becomes `.ok false`. -/
def isValidUrl (url : JsValue) (parseURL : String → Except String Unit) :
    Except String Bool :=
  match url with
  | .str s =>
    if s = "" then .ok false
    else if !(strStartsWith s "http://") && !(strStartsWith s "https://") then
      .ok false
    else
      match parseURL s with
      | .ok _ => .ok (isSupportedFeed s)
      | .error _ => .ok false
  | _ => .ok false

/-! ## The data model and storage state -/

/-- A row of the `articles` table.  `mainPicture` is nullable in the schema
but every value this system writes to it is a string (the code supplies
`""` as the last fallback), so it is modelled as `String`.  Timestamps are
opaque: `importDate` is the clock value passed for `new Date()`, and
`publicationDate` carries the feed's date string. -/
structure Article where
  id : Nat
  externalId : String
  importDate : Nat
  title : String
  description : String
  publicationDate : String
  link : String
  mainPicture : String
  deriving DecidableEq, Repr

/-- A row of the `imports` ledger table. -/
structure ImportRecord where
  id : Nat
  importDate : Nat
  rawContent : String
  deriving DecidableEq, Repr

/-- A parsed feed entry.  Fields a feed may omit are `Option` (an absent
field is JavaScript `undefined`, which becomes SQL `NULL`).  `image` stands
for `item.image?.url`.  The external identifier is the configured
primary-key field, `guid` by default; it is modelled by the `guid` field. -/
structure Item where
  guid : Option String
  title : Option String
  contentSnippet : Option String
  pubDate : Option String
  link : Option String
  image : Option String
  deriving DecidableEq, Repr

/-- A parsed feed (`parser.parseURL` result): the `items` collection, which
may be absent, and the optional feed-level image URL (`results.image?.url`). -/
structure FeedResult where
  items : Option (List Item)
  image : Option String
  deriving DecidableEq, Repr

/-- The storage state: the two tables, the next surrogate id of each, and
the number of pool connections currently checked out (`held`). -/
structure DB where
  articles : List Article
  imports : List ImportRecord
  nextArticleId : Nat
  nextImportId : Nat
  held : Nat
  deriving DecidableEq, Repr

/-- The external ids of all article rows, in table order. -/
def extIds (db : DB) : List String :=
  db.articles.map (fun r => r.externalId)

/-- The two Postgres error classes the code distinguishes. -/
inductive PgError
  | uniqueViolation
  | notNullViolation
  deriving DecidableEq, Repr

/-- The Postgres error code carried on the thrown error object: the code
compares `error.code === "23505"` (unique violation); a NOT NULL violation
carries `"23502"`. -/
def PgError.code : PgError → String
  | .uniqueViolation => "23505"
  | .notNullViolation => "23502"

/-- All fields of the entry that feed NOT NULL columns are present. -/
def itemComplete (it : Item) : Bool :=
  it.guid.isSome && it.title.isSome && it.contentSnippet.isSome &&
    it.pubDate.isSome && it.link.isSome

/-! ### Serialization of the raw payload

Models `JSON.stringify(results)`: a canonical textual rendering carrying
the full parsed payload.  The exact format is immaterial to the claims. -/

/-- Render an optional string field (`none` is JavaScript null/undefined). -/
def serializeOptField : Option String → String
  | none => "null"
  | some s => "\"" ++ s ++ "\""

/-- Render one entry. -/
def serializeItem (it : Item) : String :=
  "(guid " ++ serializeOptField it.guid ++
  ") (title " ++ serializeOptField it.title ++
  ") (contentSnippet " ++ serializeOptField it.contentSnippet ++
  ") (pubDate " ++ serializeOptField it.pubDate ++
  ") (link " ++ serializeOptField it.link ++
  ") (image " ++ serializeOptField it.image ++ ")"

/-- Render a list of entries. -/
def serializeItems : List Item → String
  | [] => ""
  | it :: rest => serializeItem it ++ "; " ++ serializeItems rest

/-- Render the whole fetch result. -/
def serializeFeed (r : FeedResult) : String :=
  "(items " ++
    (match r.items with
      | none => "null"
      | some l => "(" ++ serializeItems l ++ ")") ++
  ") (image " ++ serializeOptField r.image ++ ")"

/-! ## The import reconciler -/

/-- The `INSERT INTO articles ...` of the per-entry loop, under the
`articles_externalId_uindex` unique index.  Postgres checks NOT NULL
constraints first (a `NULL` in any required column raises `"23502"`),
then the unique index (a duplicate `externalId` raises `"23505"`);
otherwise the row is appended with a fresh surrogate id. -/
def insertArticle (db : DB) (g t d p l : Option String) (importDate : Nat)
    (mp : String) : Except PgError DB :=
  match g, t, d, p, l with
  | some gv, some tv, some dv, some pv, some lv =>
    if db.articles.any (fun r => r.externalId == gv) then
      .error .uniqueViolation
    else
      .ok { db with
        articles := db.articles ++
          [{ id := db.nextArticleId,
             externalId := gv,
             importDate := importDate,
             title := tv,
             description := dv,
             publicationDate := pv,
             link := lv,
             mainPicture := mp }],
        nextArticleId := db.nextArticleId + 1 }
  | _, _, _, _, _ => .error .notNullViolation

/-- The `UPDATE articles SET title = $1, description = $2,
publicationDate = $3, link = $4, mainPicture = $5 WHERE externalId = $6` of
the conflict branch.  A `NULL` key matches no row; with no matching row the
statement is a no-op; a `NULL` in a SET value for a NOT NULL column raises
`"23502"` when rows match; otherwise every matching row's five mutable
columns are overwritten. -/
def updateArticles (db : DB) (g t d p l : Option String) (mp : String) :
    Except PgError DB :=
  match g with
  | none => .ok db
  | some gv =>
    if db.articles.any (fun r => r.externalId == gv) then
      match t, d, p, l with
      | some tv, some dv, some pv, some lv =>
        .ok { db with articles := db.articles.map (fun r =>
          if r.externalId == gv then
            { r with
              title := tv,
              description := dv,
              publicationDate := pv,
              link := lv,
              mainPicture := mp }
          else r) }
      | _, _, _, _ => .error .notNullViolation
    else .ok db

/-- One iteration of the `for (let item of results.items)` loop: try the
insert (main picture resolved as `item.image?.url ?? results.image?.url ??
""`); on error, if `error.code === "23505"` run the update instead (main
picture resolved as `item.image?.url ?? ""` — note the missing feed-level
fallback), else rethrow. -/
def processItem (feedImage : Option String) (now : Nat) (db : DB)
    (it : Item) : Except PgError DB :=
  match insertArticle db it.guid it.title it.contentSnippet it.pubDate it.link
      now (it.image.getD (feedImage.getD "")) with
  | .ok db' => .ok db'
  | .error e =>
    if e.code = "23505" then
      updateArticles db it.guid it.title it.contentSnippet it.pubDate it.link
        (it.image.getD "")
    else .error e

/-- The whole per-entry loop: process entries in order; the first rethrown
error aborts the remaining entries.  Returns the resulting storage state
and the escaped error, if any. -/
def processItems (feedImage : Option String) (now : Nat) :
    DB → List Item → DB × Option PgError
  | db, [] => (db, none)
  | db, it :: rest =>
    match processItem feedImage now db it with
    | .ok db' => processItems feedImage now db' rest
    | .error e => (db, some e)

/-- The `INSERT INTO imports (rawContent) VALUES ($1)` ledger write with
`JSON.stringify(results)`; `importDate` is storage-defaulted to the current
clock.  It runs through `runQuery`, which acquires a connection and
releases it in a `finally`, so `held` is unchanged. -/
def recordImport (db : DB) (results : FeedResult) (now : Nat) : DB :=
  { db with
    imports := db.imports ++
      [{ id := db.nextImportId,
         importDate := now,
         rawContent := serializeFeed results }],
    nextImportId := db.nextImportId + 1 }

/-- The errors `saveImportRequest` can throw: the "No items found in the
RSS feed" error, or a rethrown Postgres error from the loop. -/
inductive SaveErr
  | noItems
  | pg (e : PgError)
  deriving DecidableEq, Repr

/-- The source method `RssModule.saveImportRequest`: write the ledger record first; throw if
the parsed result has no `items` collection; otherwise check out a
dedicated connection (`pool.connect()`, `held + 1`) and run the per-entry
loop on it.  `client.release()` (`held - 1`) is executed only after the
loop completes normally — it is not in a `finally`, so an error escaping
the loop leaves the connection checked out. -/
def saveImportRequest (results : FeedResult) (now : Nat) (db : DB) :
    DB × Option SaveErr :=
  let db1 := recordImport db results now
  match results.items with
  | none => (db1, some .noItems)
  | some items =>
    let db2 := { db1 with held := db1.held + 1 }
    match processItems results.image now db2 items with
    | (db3, none) => ({ db3 with held := db3.held - 1 }, none)
    | (db3, some e) => (db3, some (.pg e))

/-- The errors `RssModule.import` can surface to its caller. -/
inductive ImportError
  | badUrl
  | fetchFailed (msg : String)
  | thrown (msg : String)
  deriving DecidableEq, Repr

/-- The source method `RssModule.import` (named `importOp` here because `import` is reserved):
resolve the URL (`url || this.url`, the empty string being falsy), validate
it, fetch and parse the feed (the external fetch outcome is the `fetched`
oracle), return the raw result when `save` is false, and otherwise run
`saveImportRequest` inside `try { ... } catch (error) { } finally { return
results }` — the save call is not awaited and the `finally` returns the
fetched results, so a save failure is swallowed and the parsed feed is
returned as if the import had succeeded. -/
def importOp (url : Option String) (classUrl : String) (save : Bool)
    (parseURL : String → Except String Unit)
    (fetched : Except String FeedResult) (now : Nat) (db : DB) :
    Except ImportError (FeedResult × DB) :=
  let u := match url with
    | some s => if s = "" then classUrl else s
    | none => classUrl
  match isValidUrl (.str u) parseURL with
  | .error e => .error (.thrown e)
  | .ok false => .error .badUrl
  | .ok true =>
    match fetched with
    | .error m => .error (.fetchFailed m)
    | .ok results =>
      if save then .ok (results, (saveImportRequest results now db).1)
      else .ok (results, db)

/-! ## Concrete fixtures -/

/-- A database with no rows and no held connections. -/
def emptyDB : DB :=
  { articles := [], imports := [], nextArticleId := 1, nextImportId := 1,
    held := 0 }

/-- A complete, well-formed feed entry without an entry-level image. -/
def itemGood : Item :=
  { guid := some "g1", title := some "Breaking news",
    contentSnippet := some "desc", pubDate := some "2024-01-01",
    link := some "https://example.org/a", image := none }

/-- A feed carrying `itemGood` and a feed-level image. -/
def feedGood : FeedResult :=
  { items := some [itemGood], image := some "https://example.org/feed.png" }

/-- An entry whose `title` is absent: inserting it raises a NOT NULL
violation, a fatal (non-conflict) storage error. -/
def itemBad : Item :=
  { guid := some "g1", title := none, contentSnippet := some "d",
    pubDate := some "p", link := some "l", image := none }

/-- A feed whose only entry is `itemBad`. -/
def feedBad : FeedResult :=
  { items := some [itemBad], image := none }

/-- A parsed result with no `items` collection at all. -/
def noItemsFeed : FeedResult :=
  { items := none, image := none }

/-- A database already holding one article with external id `"g1"`. -/
def dbOneRow : DB :=
  { articles :=
      [{ id := 1,
         externalId := "g1",
         importDate := 0,
         title := "t0",
         description := "d0",
         publicationDate := "p0",
         link := "l0",
         mainPicture := "old" }],
    imports := [], nextArticleId := 2, nextImportId := 1, held := 0 }

/-- A complete entry for external id `"g1"` with no entry-level image. -/
def itemNoImage : Item :=
  { guid := some "g1", title := some "t1", contentSnippet := some "d1",
    pubDate := some "p1", link := some "l1", image := none }

/-! ## Proofs about `wordWithMostVowels` -/

lemma candidates_eq_candAt (ws : List String) :
    candidates ws = candAt (maxVowelCount ws) ws := rfl

lemma firstWithMaxLen_eq_firstAt (ws : List String) :
    firstWithMaxLen ws = firstAt (maxLen ws) ws := rfl

lemma string_eq_empty_of_length (s : String) (h : s.length = 0) : s = "" := by
  cases s with
  | mk data =>
    simp [String.length] at h
    subst h
    rfl

lemma wordFold_fst_vc (b : String) (w : String) :
    vowelCount (wordFold (b, vowelCount b) w).1
      = (wordFold (b, vowelCount b) w).2 := by
  unfold wordFold
  by_cases h1 : vowelCount w > vowelCount b
  · simp [h1]
  · by_cases h2 : vowelCount w = vowelCount b ∧ b.length < w.length
    · simp [h1, h2, h2.1]
    · simp [h1, h2]

lemma wordFold_snd_max (b : String) (w : String) :
    (wordFold (b, vowelCount b) w).2 = max (vowelCount b) (vowelCount w) := by
  unfold wordFold
  by_cases h1 : vowelCount w > vowelCount b
  · have hm : max (vowelCount b) (vowelCount w) = vowelCount w := by omega
    simp [h1, hm]
  · have hm : max (vowelCount b) (vowelCount w) = vowelCount b := by omega
    by_cases h2 : vowelCount w = vowelCount b ∧ b.length < w.length
    · simp [h1, h2, hm]
    · simp [h1, h2, hm]

lemma wordFold_init (w : String) : wordFold ("", 0) w = (w, vowelCount w) := by
  unfold wordFold
  by_cases h1 : vowelCount w > 0
  · simp [h1]
  · by_cases h2 : 0 < w.length
    · have hv : vowelCount w = 0 := by omega
      simp [h1, h2, hv]
    · have hl : w.length = 0 := by omega
      have hw : w = "" := string_eq_empty_of_length w hl
      have hvc : vowelCount "" = 0 := by decide
      subst hw
      simp [h1, h2, hvc]

lemma candAt_cons (t : Nat) (x : String) (ws : List String) :
    candAt t (x :: ws)
      = if vowelCount x = t then x :: candAt t ws else candAt t ws := by
  simp [candAt, List.filter_cons]

lemma firstAt_cons (l : Nat) (x : String) (ws : List String) :
    firstAt l (x :: ws) = if x.length = l then x else firstAt l ws := by
  by_cases h : x.length = l
  · simp [firstAt, List.find?_cons, h]
  · simp [firstAt, List.find?_cons, h]

lemma maxVowelCount_wordFold (b w : String) (rest : List String) :
    maxVowelCount ((wordFold (b, vowelCount b) w).1 :: rest)
      = maxVowelCount (b :: w :: rest) := by
  have h1 := wordFold_fst_vc b w
  have h2 := wordFold_snd_max b w
  simp only [maxVowelCount, h1, h2]
  omega

lemma firstWithMaxLen_cons_short (b w : String) (l : List String)
    (hl : b.length < w.length) :
    firstWithMaxLen (b :: w :: l) = firstWithMaxLen (w :: l) := by
  rw [firstWithMaxLen_eq_firstAt, firstWithMaxLen_eq_firstAt]
  have hm : maxLen (b :: w :: l) = maxLen (w :: l) := by
    simp only [maxLen]; omega
  rw [hm, firstAt_cons]
  have hb : ¬ (b.length = maxLen (w :: l)) := by
    simp only [maxLen]; omega
  simp [hb]

lemma firstWithMaxLen_cons_cons_le (b w : String) (l : List String)
    (hl : w.length ≤ b.length) :
    firstWithMaxLen (b :: w :: l) = firstWithMaxLen (b :: l) := by
  rw [firstWithMaxLen_eq_firstAt, firstWithMaxLen_eq_firstAt]
  have hm : maxLen (b :: w :: l) = maxLen (b :: l) := by
    simp only [maxLen]; omega
  rw [hm, firstAt_cons, firstAt_cons]
  by_cases hb : b.length = maxLen (b :: l)
  · simp [hb]
    rw [firstAt_cons]
    simp [hb]
  · have hw : ¬ (w.length = maxLen (b :: l)) := by
      simp only [maxLen] at hb ⊢
      omega
    simp [hb, hw]
    rw [firstAt_cons]
    simp [hb]

lemma sel_gt (b w : String) (rest : List String)
    (h : vowelCount b < vowelCount w) :
    firstWithMaxLen (candidates (w :: rest))
      = firstWithMaxLen (candidates (b :: w :: rest)) := by
  have hT : maxVowelCount (b :: w :: rest) = maxVowelCount (w :: rest) := by
    simp only [maxVowelCount]; omega
  have hb : ¬ (vowelCount b = maxVowelCount (w :: rest)) := by
    simp only [maxVowelCount]; omega
  have hc : candidates (b :: w :: rest) = candidates (w :: rest) := by
    rw [candidates_eq_candAt, candidates_eq_candAt, hT, candAt_cons]
    simp [hb]
  rw [hc]

lemma sel_tie (b w : String) (rest : List String)
    (hv : vowelCount w = vowelCount b) (hl : b.length < w.length) :
    firstWithMaxLen (candidates (w :: rest))
      = firstWithMaxLen (candidates (b :: w :: rest)) := by
  have hT : maxVowelCount (b :: w :: rest) = maxVowelCount (w :: rest) := by
    simp only [maxVowelCount]; omega
  by_cases hb : vowelCount b = maxVowelCount (w :: rest)
  · have hw2 : vowelCount w = maxVowelCount (w :: rest) := by omega
    have hcbig : candidates (b :: w :: rest)
        = b :: w :: candAt (maxVowelCount (w :: rest)) rest := by
      rw [candidates_eq_candAt, hT]
      simp [candAt_cons, hb, hw2]
    have hcsmall : candidates (w :: rest)
        = w :: candAt (maxVowelCount (w :: rest)) rest := by
      rw [candidates_eq_candAt]
      simp [candAt_cons, hw2]
    rw [hcbig, hcsmall]
    exact (firstWithMaxLen_cons_short b w _ hl).symm
  · have hw2 : ¬ (vowelCount w = maxVowelCount (w :: rest)) := by omega
    have hc : candidates (b :: w :: rest) = candidates (w :: rest) := by
      rw [candidates_eq_candAt, candidates_eq_candAt, hT]
      simp [candAt_cons, hb, hw2]
    rw [hc]

lemma sel_keep (b w : String) (rest : List String)
    (hv : vowelCount w ≤ vowelCount b)
    (himp : vowelCount w = vowelCount b → w.length ≤ b.length) :
    firstWithMaxLen (candidates (b :: rest))
      = firstWithMaxLen (candidates (b :: w :: rest)) := by
  have hT : maxVowelCount (b :: w :: rest) = maxVowelCount (b :: rest) := by
    simp only [maxVowelCount]; omega
  by_cases hw : vowelCount w = maxVowelCount (b :: rest)
  · have hvb : vowelCount b = maxVowelCount (b :: rest) := by
      simp only [maxVowelCount] at hw ⊢
      omega
    have hww : w.length ≤ b.length := himp (by omega)
    have hcbig : candidates (b :: w :: rest)
        = b :: w :: candAt (maxVowelCount (b :: rest)) rest := by
      rw [candidates_eq_candAt, hT]
      simp [candAt_cons, hvb, hw]
    have hcsmall : candidates (b :: rest)
        = b :: candAt (maxVowelCount (b :: rest)) rest := by
      rw [candidates_eq_candAt]
      simp [candAt_cons, hvb]
    rw [hcbig, hcsmall]
    exact (firstWithMaxLen_cons_cons_le b w _ hww).symm
  · have hc : candidates (b :: w :: rest) = candidates (b :: rest) := by
      rw [candidates_eq_candAt, candidates_eq_candAt, hT]
      simp [candAt_cons, hw]
    rw [hc]

lemma wordFold_fst_gt (b w : String) (h : vowelCount b < vowelCount w) :
    (wordFold (b, vowelCount b) w).1 = w := by
  unfold wordFold
  simp [h]

lemma wordFold_fst_tie (b w : String) (hv : vowelCount w = vowelCount b)
    (hl : b.length < w.length) :
    (wordFold (b, vowelCount b) w).1 = w := by
  unfold wordFold
  have h1 : ¬ vowelCount w > vowelCount b := by omega
  simp [h1, hv, hl]

lemma wordFold_fst_keep (b w : String) (hv : vowelCount w ≤ vowelCount b)
    (himp : vowelCount w = vowelCount b → w.length ≤ b.length) :
    (wordFold (b, vowelCount b) w).1 = b := by
  unfold wordFold
  have h1 : ¬ vowelCount w > vowelCount b := by omega
  by_cases h2 : vowelCount w = vowelCount b
  · have hle := himp h2
    have h3 : ¬ (b.length < w.length) := by omega
    simp [h1, h2, h3]
  · simp [h1, h2]

lemma select_wordFold (b w : String) (rest : List String) :
    firstWithMaxLen (candidates ((wordFold (b, vowelCount b) w).1 :: rest))
      = firstWithMaxLen (candidates (b :: w :: rest)) := by
  by_cases h1 : vowelCount b < vowelCount w
  · rw [wordFold_fst_gt b w h1]
    exact sel_gt b w rest h1
  · by_cases h2 : vowelCount w = vowelCount b ∧ b.length < w.length
    · rw [wordFold_fst_tie b w h2.1 h2.2]
      exact sel_tie b w rest h2.1 h2.2
    · have hv : vowelCount w ≤ vowelCount b := by omega
      have himp : vowelCount w = vowelCount b → w.length ≤ b.length := by
        intro h
        by_cases hl : b.length < w.length
        · exact absurd ⟨h, hl⟩ h2
        · omega
      rw [wordFold_fst_keep b w hv himp]
      exact sel_keep b w rest hv himp

lemma foldl_wordFold_spec (rest : List String) : ∀ (b : String),
    rest.foldl wordFold (b, vowelCount b)
      = (firstWithMaxLen (candidates (b :: rest)), maxVowelCount (b :: rest)) := by
  induction rest with
  | nil =>
    intro b
    have hT : maxVowelCount [b] = vowelCount b := by
      simp [maxVowelCount]
    have hc : candidates [b] = [b] := by
      rw [candidates_eq_candAt, hT]
      simp [candAt_cons, candAt]
    have hL : maxLen [b] = b.length := by
      simp [maxLen]
    have hf : firstWithMaxLen [b] = b := by
      rw [firstWithMaxLen_eq_firstAt, hL, firstAt_cons]
      simp [firstAt]
    simp [List.foldl, hc, hf, hT]
  | cons w rest ih =>
    intro b
    have hpair : wordFold (b, vowelCount b) w
        = ((wordFold (b, vowelCount b) w).1,
            vowelCount (wordFold (b, vowelCount b) w).1) := by
      rw [wordFold_fst_vc]
    rw [List.foldl_cons, hpair, ih ((wordFold (b, vowelCount b) w).1),
      select_wordFold, maxVowelCount_wordFold]

/-- Claim C2 (corrected), counterexample to the claim as stated.  The
claim says the title is split *on whitespace*; the code splits on the space
character only.  On the title `"e\tz"` (a tab between two words) the
whitespace-split selection of the claim yields `"e"`, while the code keeps
the tab inside a single word and returns `"e\tz"`. -/
theorem claim_C2_counterexample :
    wordWithMostVowels "e\tz" ≠ wordWithMostVowelsSpec "e\tz" := by
  decide

/-- Claim C2 (corrected), the amended claim: `wordWithMostVowels`
splits the title on the space character (not on general whitespace), counts
in each word the letters of the lower-case vowel set `{a,e,i,o,u,y}`, and
returns the word with the highest count, a count tie going to the strictly
longer word and the first-seen word winning when lengths are equal —
stated extensionally: the result is the first word of maximal length among
the words attaining the maximal vowel count.  The empty title yields the
empty string as the special case `splitBy (… = ' ') "" = [""]`. -/
theorem claim_C2_amended (title : String) :
    wordWithMostVowels title
      = firstWithMaxLen (candidates (splitBy (fun c => c = ' ') title)) := by
  unfold wordWithMostVowels
  cases hws : splitBy (fun c => c = ' ') title with
  | nil => simp [List.foldl, candidates, firstWithMaxLen]
  | cons w rest =>
    rw [List.foldl_cons, wordFold_init, foldl_wordFold_spec rest w]

/-- Claim C9 (confirmed): on the title `"bcd fg"`, none of whose words
contains a vowel of the set (the maximal vowel count of its words is `0`),
`wordWithMostVowels` returns the longest zero-vowel word `"bcd"`, not the
empty string: a zero-vowel word longer than the current candidate is
adopted through the tie-breaking branch. -/
theorem claim_C9_zero_vowels :
    maxVowelCount (splitBy (fun c => c = ' ') "bcd fg") = 0 ∧
    "bcd fg" ≠ "" ∧
    wordWithMostVowels "bcd fg" = "bcd" ∧
    "bcd" ≠ "" ∧
    ("bcd" : String).length = maxLen (splitBy (fun c => c = ' ') "bcd fg") := by
  decide

/-! ## Proofs about the feed validator -/

lemma isSupportedFeed_false_of_not_mem (s : String)
    (h : s ∉ supportedRssFeeds) : isSupportedFeed s = false := by
  simpa [isSupportedFeed] using h

/-- Claim C7 (confirmed): `isValidUrl` returns `true` for every URL of
the fixed allow-list (provided the URL parser accepts it, which the real
WHATWG parser does), and returns `false` for every non-string value, for
the empty string, for any string starting with neither `http://` nor
`https://`, for any string the URL parser rejects, and for any string not
on the allow-list. -/
theorem claim_C7_validator (p : String → Except String Unit) :
    ((∀ u ∈ supportedRssFeeds, p u = Except.ok ()) →
      ∀ u ∈ supportedRssFeeds, isValidUrl (.str u) p = .ok true) ∧
    (∀ v : JsValue, (∀ s : String, v ≠ .str s) → isValidUrl v p = .ok false) ∧
    (isValidUrl (.str "") p = .ok false) ∧
    (∀ s : String,
      strStartsWith s "http://" = false → strStartsWith s "https://" = false →
      isValidUrl (.str s) p = .ok false) ∧
    (∀ s e, p s = Except.error e → isValidUrl (.str s) p = .ok false) ∧
    (∀ s : String, s ∉ supportedRssFeeds → isValidUrl (.str s) p = .ok false) := by
  refine ⟨?_, ?_, ?_, ?_, ?_, ?_⟩
  · intro hp u hu
    have hpu := hp u hu
    have hu2 : u = "https://www.lemonde.fr/rss/une.xml" ∨
        u = "https://www.theguardian.com/world/europe-news/rss" := by
      simpa [supportedRssFeeds] using hu
    rcases hu2 with rfl | rfl <;> simp [isValidUrl, hpu] <;>
      rw [if_neg (by decide)] <;> rfl
  · intro v hv
    cases v with
    | nullV => rfl
    | undef => rfl
    | boolV b => rfl
    | num n => rfl
    | str s => exact absurd rfl (hv s)
  · rfl
  · intro s h1 h2
    by_cases hs : s = ""
    · simp [isValidUrl, hs]
    · simp [isValidUrl, hs, h1, h2]
  · intro s e hpe
    by_cases hs : s = ""
    · simp [isValidUrl, hs]
    · by_cases h1 : strStartsWith s "http://" <;>
        by_cases h2 : strStartsWith s "https://" <;>
          simp [isValidUrl, hs, h1, h2, hpe]
  · intro s hns
    have hsf : isSupportedFeed s = false := isSupportedFeed_false_of_not_mem s hns
    by_cases hs : s = ""
    · simp [isValidUrl, hs]
    · by_cases h1 : strStartsWith s "http://" <;>
        by_cases h2 : strStartsWith s "https://" <;>
          cases hp2 : p s <;>
            simp [isValidUrl, hs, h1, h2, hp2, hsf]

/-- Concrete instances of claim C7: an allow-listed URL is accepted; a
null value, a scheme-less URL, a URL the parser rejects, and a well-formed
URL outside the allow-list are all rejected. -/
theorem claim_C7_witness :
    isValidUrl (.str "https://www.lemonde.fr/rss/une.xml")
        (fun _ => Except.ok ()) = Except.ok true ∧
    isValidUrl JsValue.nullV (fun _ => Except.ok ()) = Except.ok false ∧
    isValidUrl (.str "ftp://example.org") (fun _ => Except.ok ())
      = Except.ok false ∧
    isValidUrl (.str "https://bad.example.org/x")
        (fun _ => Except.error "parse failure") = Except.ok false ∧
    isValidUrl (.str "https://example.org/not-in-list")
        (fun _ => Except.ok ()) = Except.ok false :=
  ⟨(claim_C7_validator (fun _ => Except.ok ())).1 (fun _ _ => rfl) _ (by decide),
   (claim_C7_validator (fun _ => Except.ok ())).2.1 JsValue.nullV
     (fun _ h => JsValue.noConfusion h),
   (claim_C7_validator (fun _ => Except.ok ())).2.2.2.1 "ftp://example.org"
     (by decide) (by decide),
   (claim_C7_validator (fun _ => Except.error "parse failure")).2.2.2.2.1
     "https://bad.example.org/x" "parse failure" rfl,
   (claim_C7_validator (fun _ => Except.ok ())).2.2.2.2.2
     "https://example.org/not-in-list" (by decide)⟩

/-- Claim C10 (confirmed): `isValidUrl` is total and never lets an
exception escape, whatever the input value and whatever the URL parser
does: every evaluation is a normal boolean return (`Except.ok`), never a
propagated exception (`Except.error`). -/
theorem claim_C10_total (v : JsValue) (p : String → Except String Unit) :
    ∃ b : Bool, isValidUrl v p = Except.ok b := by
  cases v with
  | nullV => exact ⟨false, rfl⟩
  | undef => exact ⟨false, rfl⟩
  | boolV b => exact ⟨false, rfl⟩
  | num n => exact ⟨false, rfl⟩
  | str s =>
    by_cases hs : s = ""
    · exact ⟨false, by simp [isValidUrl, hs]⟩
    · by_cases hpre :
        (!(strStartsWith s "http://") && !(strStartsWith s "https://")) = true
      · exact ⟨false, by simp [isValidUrl, hs, hpre]⟩
      · cases hp : p s with
        | ok u => exact ⟨isSupportedFeed s, by simp [isValidUrl, hs, hpre, hp]⟩
        | error e => exact ⟨false, by simp [isValidUrl, hs, hpre, hp]⟩

/-! ## Proofs about the import reconciler -/

lemma any_extId_iff (db : DB) (g : String) :
    (db.articles.any (fun r => r.externalId == g)) = true ↔ g ∈ extIds db := by
  simp [extIds, List.any_eq_true, List.mem_map]

lemma processItem_complete_eq (img : Option String) (now : Nat) (db : DB)
    (it : Item) (gv tv dv pv lv : String)
    (hg : it.guid = some gv) (ht : it.title = some tv)
    (hd : it.contentSnippet = some dv) (hp : it.pubDate = some pv)
    (hl : it.link = some lv) :
    processItem img now db it
      = if db.articles.any (fun r => r.externalId == gv) then
          .ok { db with articles := db.articles.map (fun r =>
            if r.externalId == gv then
              { r with
                title := tv,
                description := dv,
                publicationDate := pv,
                link := lv,
                mainPicture := it.image.getD "" }
            else r) }
        else
          .ok { db with
            articles := db.articles ++
              [{ id := db.nextArticleId,
                 externalId := gv,
                 importDate := now,
                 title := tv,
                 description := dv,
                 publicationDate := pv,
                 link := lv,
                 mainPicture := it.image.getD (img.getD "") }],
            nextArticleId := db.nextArticleId + 1 } := by
  by_cases hany : db.articles.any (fun r => r.externalId == gv)
  · simp [processItem, insertArticle, updateArticles, hg, ht, hd, hp, hl,
      hany, PgError.code]
  · simp [processItem, insertArticle, updateArticles, hg, ht, hd, hp, hl,
      hany, PgError.code]

lemma processItem_incomplete (img : Option String) (now : Nat) (db : DB)
    (it : Item) (h : itemComplete it = false) :
    processItem img now db it = .error PgError.notNullViolation := by
  rcases hg : it.guid with _ | gv <;>
    rcases ht : it.title with _ | tv <;>
      rcases hd : it.contentSnippet with _ | dv <;>
        rcases hp : it.pubDate with _ | pv <;>
          rcases hl : it.link with _ | lv <;>
            first
              | (simp [processItem, insertArticle, hg, ht, hd, hp, hl,
                  PgError.code]; done)
              | simp [itemComplete, hg, ht, hd, hp, hl] at h

lemma processItem_ok_complete (img : Option String) (now : Nat) (db : DB)
    (it : Item) (db' : DB) (h : processItem img now db it = .ok db') :
    itemComplete it = true := by
  by_cases hc : itemComplete it
  · exact hc
  · rw [processItem_incomplete img now db it (by simpa using hc)] at h
    cases h

lemma itemComplete_fields (it : Item) (h : itemComplete it = true) :
    ∃ gv tv dv pv lv, it.guid = some gv ∧ it.title = some tv ∧
      it.contentSnippet = some dv ∧ it.pubDate = some pv ∧
      it.link = some lv := by
  rcases hg : it.guid with _ | gv <;>
    rcases ht : it.title with _ | tv <;>
      rcases hd : it.contentSnippet with _ | dv <;>
        rcases hp : it.pubDate with _ | pv <;>
          rcases hl : it.link with _ | lv <;>
            first
              | exact ⟨gv, tv, dv, pv, lv, rfl, rfl, rfl, rfl, rfl⟩
              | simp [itemComplete, hg, ht, hd, hp, hl] at h

lemma map_update_extIds (l : List Article) (gv tv dv pv lv mp : String) :
    (l.map (fun r =>
      if r.externalId == gv then
        { r with
          title := tv,
          description := dv,
          publicationDate := pv,
          link := lv,
          mainPicture := mp }
      else r)).map (fun r => r.externalId) = l.map (fun r => r.externalId) := by
  rw [List.map_map]
  apply List.map_congr_left
  intro r _
  by_cases h : r.externalId = gv <;> simp [h]

lemma processItem_mem_eq (img : Option String) (now : Nat) (db : DB)
    (it : Item) (gv tv dv pv lv : String)
    (hg : it.guid = some gv) (ht : it.title = some tv)
    (hd : it.contentSnippet = some dv) (hp : it.pubDate = some pv)
    (hl : it.link = some lv) (hmem : gv ∈ extIds db) :
    processItem img now db it
      = .ok { db with articles := db.articles.map (fun r =>
          if r.externalId == gv then
            { r with
              title := tv,
              description := dv,
              publicationDate := pv,
              link := lv,
              mainPicture := it.image.getD "" }
          else r) } := by
  rw [processItem_complete_eq img now db it gv tv dv pv lv hg ht hd hp hl,
    if_pos ((any_extId_iff db gv).2 hmem)]

lemma processItem_notmem_eq (img : Option String) (now : Nat) (db : DB)
    (it : Item) (gv tv dv pv lv : String)
    (hg : it.guid = some gv) (ht : it.title = some tv)
    (hd : it.contentSnippet = some dv) (hp : it.pubDate = some pv)
    (hl : it.link = some lv) (hnot : ¬ gv ∈ extIds db) :
    processItem img now db it
      = .ok { db with
          articles := db.articles ++
            [{ id := db.nextArticleId,
               externalId := gv,
               importDate := now,
               title := tv,
               description := dv,
               publicationDate := pv,
               link := lv,
               mainPicture := it.image.getD (img.getD "") }],
          nextArticleId := db.nextArticleId + 1 } := by
  rw [processItem_complete_eq img now db it gv tv dv pv lv hg ht hd hp hl]
  rw [if_neg]
  intro hc
  exact hnot ((any_extId_iff db gv).1 hc)

lemma extIds_update_db (db : DB) (gv tv dv pv lv mp : String) :
    extIds { db with articles := db.articles.map (fun r =>
      if r.externalId == gv then
        { r with
          title := tv,
          description := dv,
          publicationDate := pv,
          link := lv,
          mainPicture := mp }
      else r) } = extIds db := by
  simp only [extIds]
  exact map_update_extIds db.articles gv tv dv pv lv mp

lemma processItem_ok_facts (img : Option String) (now : Nat) (db : DB)
    (it : Item) (db' : DB) (h : processItem img now db it = .ok db') :
    db'.imports = db.imports ∧ db'.held = db.held ∧
      db'.nextImportId = db.nextImportId ∧
      (∀ x ∈ extIds db, x ∈ extIds db') ∧
      ((extIds db).Nodup → (extIds db').Nodup) ∧
      ∃ g, it.guid = some g ∧ g ∈ extIds db' := by
  have hc := processItem_ok_complete img now db it db' h
  obtain ⟨gv, tv, dv, pv, lv, hg, ht, hd, hp, hl⟩ := itemComplete_fields it hc
  by_cases hmem : gv ∈ extIds db
  · rw [processItem_mem_eq img now db it gv tv dv pv lv hg ht hd hp hl hmem] at h
    injection h with h1
    subst h1
    have hext := extIds_update_db db gv tv dv pv lv (it.image.getD "")
    refine ⟨rfl, rfl, rfl, ?_, ?_, gv, hg, ?_⟩
    · intro x hx
      rw [hext]
      exact hx
    · intro hnd
      rw [hext]
      exact hnd
    · rw [hext]
      exact hmem
  · rw [processItem_notmem_eq img now db it gv tv dv pv lv hg ht hd hp hl hmem]
      at h
    injection h with h1
    subst h1
    have hext : extIds { db with
        articles := db.articles ++
          [{ id := db.nextArticleId,
             externalId := gv,
             importDate := now,
             title := tv,
             description := dv,
             publicationDate := pv,
             link := lv,
             mainPicture := it.image.getD (img.getD "") }],
        nextArticleId := db.nextArticleId + 1 } = extIds db ++ [gv] := by
      simp [extIds]
    refine ⟨rfl, rfl, rfl, ?_, ?_, gv, hg, ?_⟩
    · intro x hx
      rw [hext]
      exact List.mem_append_left _ hx
    · intro hnd
      rw [hext]
      rw [List.nodup_append]
      refine ⟨hnd, List.nodup_singleton _, ?_⟩
      intro x hx hx2
      have : x = gv := by simpa using hx2
      subst this
      exact hmem hx
    · rw [hext]
      exact List.mem_append_right _ (by simp)

lemma processItems_ok_props (img : Option String) (now : Nat) :
    ∀ (items : List Item) (db db' : DB),
      processItems img now db items = (db', none) →
      (∀ x ∈ extIds db, x ∈ extIds db') ∧
      (∀ it2 ∈ items, itemComplete it2 = true ∧
        ∃ g, it2.guid = some g ∧ g ∈ extIds db') ∧
      ((extIds db).Nodup → (extIds db').Nodup) ∧
      db'.imports = db.imports ∧ db'.held = db.held := by
  intro items
  induction items with
  | nil =>
    intro db db' h
    simp [processItems] at h
    subst h
    exact ⟨fun x hx => hx, by simp, fun hnd => hnd, rfl, rfl⟩
  | cons it rest ih =>
    intro db db' h
    rw [processItems] at h
    cases hpi : processItem img now db it with
    | error e =>
      rw [hpi] at h
      simp at h
    | ok db1 =>
      rw [hpi] at h
      obtain ⟨him1, hh1, _, hmono1, hnd1, g, hg, hmem1⟩ :=
        processItem_ok_facts img now db it db1 hpi
      obtain ⟨hmono2, hrest, hnd2, him2, hh2⟩ := ih db1 db' h
      have hcomp := processItem_ok_complete img now db it db1 hpi
      refine ⟨fun x hx => hmono2 x (hmono1 x hx), ?_, fun hnd => hnd2 (hnd1 hnd),
        him2.trans him1, hh2.trans hh1⟩
      intro it2 hit2
      rcases List.mem_cons.1 hit2 with rfl | hit2r
      · exact ⟨hcomp, g, hg, hmono2 g hmem1⟩
      · exact hrest it2 hit2r

lemma processItems_all_mem (img : Option String) (now : Nat) :
    ∀ (items : List Item) (db : DB),
      (∀ it2 ∈ items, itemComplete it2 = true ∧
        ∃ g, it2.guid = some g ∧ g ∈ extIds db) →
      ∃ db', processItems img now db items = (db', none) ∧
        extIds db' = extIds db ∧
        db'.articles.length = db.articles.length ∧
        db'.imports = db.imports ∧ db'.held = db.held := by
  intro items
  induction items with
  | nil =>
    intro db _
    exact ⟨db, rfl, rfl, rfl, rfl, rfl⟩
  | cons it rest ih =>
    intro db hall
    obtain ⟨hc, g, hg, hmem⟩ := hall it (List.mem_cons_self it rest)
    obtain ⟨gv, tv, dv, pv, lv, hg2, ht, hd, hp, hl⟩ := itemComplete_fields it hc
    have hgg : g = gv := by
      have h2 := hg.symm.trans hg2
      injection h2
    have hmemv : gv ∈ extIds db := hgg ▸ hmem
    have heq := processItem_mem_eq img now db it gv tv dv pv lv hg2 ht hd hp hl
      hmemv
    have hext := extIds_update_db db gv tv dv pv lv (it.image.getD "")
    have hlen : ({ db with articles := db.articles.map (fun r =>
        if r.externalId == gv then
          { r with
            title := tv,
            description := dv,
            publicationDate := pv,
            link := lv,
            mainPicture := it.image.getD "" }
        else r) } : DB).articles.length = db.articles.length := by
      simp
    obtain ⟨db', hrun, hext2, hlen2, him2, hh2⟩ := ih _ (by
      intro it2 hit2
      obtain ⟨hc2, g2, hg3, hmem2⟩ := hall it2 (List.mem_cons_of_mem it hit2)
      exact ⟨hc2, g2, hg3, by rw [hext]; exact hmem2⟩)
    refine ⟨db', ?_, ?_, ?_, him2, hh2⟩
    · rw [processItems, heq]
      exact hrun
    · rw [hext2, hext]
    · rw [hlen2, hlen]

lemma saveImportRequest_none_eq (results : FeedResult) (now : Nat) (db : DB)
    (h : results.items = none) :
    saveImportRequest results now db
      = (recordImport db results now, some .noItems) := by
  simp [saveImportRequest, h]

lemma saveImportRequest_loop_none (results : FeedResult) (now : Nat) (db : DB)
    (items : List Item) (db3 : DB) (hitems : results.items = some items)
    (hloop : processItems results.image now
      { recordImport db results now with
        held := (recordImport db results now).held + 1 } items = (db3, none)) :
    saveImportRequest results now db
      = ({ db3 with held := db3.held - 1 }, none) := by
  simp [saveImportRequest, hitems, hloop]

lemma saveImportRequest_loop_err (results : FeedResult) (now : Nat) (db : DB)
    (items : List Item) (db3 : DB) (e : PgError)
    (hitems : results.items = some items)
    (hloop : processItems results.image now
      { recordImport db results now with
        held := (recordImport db results now).held + 1 } items
      = (db3, some e)) :
    saveImportRequest results now db = (db3, some (.pg e)) := by
  simp [saveImportRequest, hitems, hloop]

/-- Claim C1 (confirmed): starting from any store whose external ids are
unique, if a save of a feed succeeds, then saving the identical feed again
also succeeds, produces no new article rows (the article count after the
re-import equals the count after the first import), and the external-id
uniqueness invariant holds after both imports — a conflicting insert falls
back to an update of the existing row instead of creating a duplicate. -/
theorem claim_C1_idempotent (results : FeedResult) (now1 now2 : Nat) (db0 : DB)
    (hnd : (extIds db0).Nodup)
    (h1 : (saveImportRequest results now1 db0).2 = none) :
    (saveImportRequest results now2 (saveImportRequest results now1 db0).1).2
      = none ∧
    (saveImportRequest results now2
        (saveImportRequest results now1 db0).1).1.articles.length
      = (saveImportRequest results now1 db0).1.articles.length ∧
    (extIds (saveImportRequest results now1 db0).1).Nodup ∧
    (extIds (saveImportRequest results now2
        (saveImportRequest results now1 db0).1).1).Nodup := by
  cases hitems : results.items with
  | none =>
    rw [saveImportRequest_none_eq results now1 db0 hitems] at h1
    simp at h1
  | some items =>
    rcases hloop : processItems results.image now1
        { recordImport db0 results now1 with
          held := (recordImport db0 results now1).held + 1 } items
      with ⟨db3, e3⟩
    cases e3 with
    | some e =>
      rw [saveImportRequest_loop_err results now1 db0 items db3 e hitems hloop]
        at h1
      simp at h1
    | none =>
      have hsave1 :=
        saveImportRequest_loop_none results now1 db0 items db3 hitems hloop
      obtain ⟨hmono, hrest, hnd3, _, _⟩ :=
        processItems_ok_props results.image now1 items _ db3 hloop
      have hndC : (extIds { recordImport db0 results now1 with
          held := (recordImport db0 results now1).held + 1 }).Nodup := by
        simpa [extIds, recordImport] using hnd
      have hnd3' := hnd3 hndC
      rw [hsave1]
      have hallmem : ∀ it2 ∈ items, itemComplete it2 = true ∧
          ∃ g, it2.guid = some g ∧
            g ∈ extIds { recordImport { db3 with held := db3.held - 1 }
                results now2 with
              held := (recordImport { db3 with held := db3.held - 1 }
                results now2).held + 1 } := by
        intro it2 h2
        obtain ⟨hc2, g, hg, hmem⟩ := hrest it2 h2
        exact ⟨hc2, g, hg, by simpa [extIds, recordImport] using hmem⟩
      obtain ⟨db', hrun, hext, hlen, _, _⟩ :=
        processItems_all_mem results.image now2 items _ hallmem
      have hsave2 := saveImportRequest_loop_none results now2
        { db3 with held := db3.held - 1 } items db' hitems hrun
      rw [hsave2]
      refine ⟨rfl, ?_, ?_, ?_⟩
      · show db'.articles.length = db3.articles.length
        rw [hlen]
        rfl
      · show (extIds { db3 with held := db3.held - 1 }).Nodup
        simpa [extIds] using hnd3'
      · show (extIds { db' with held := db'.held - 1 }).Nodup
        have hdb' : extIds db' = extIds db3 := by
          rw [hext]
          simp [extIds, recordImport]
        have hsame : extIds { db' with held := db'.held - 1 } = extIds db' := rfl
        rw [hsame, hdb']
        exact hnd3'

lemma processItems_frame (img : Option String) (now : Nat) :
    ∀ (items : List Item) (db : DB),
      (processItems img now db items).1.imports = db.imports := by
  intro items
  induction items with
  | nil =>
    intro db
    rfl
  | cons it rest ih =>
    intro db
    rw [processItems]
    cases hpi : processItem img now db it with
    | error e => rfl
    | ok db1 =>
      obtain ⟨him, _, _, _, _, _⟩ := processItem_ok_facts img now db it db1 hpi
      rw [ih db1, him]

/-- Claim C5 (confirmed): every save appends exactly one ledger record
carrying the serialized raw payload, whatever happens afterwards (also when
the per-entry loop fails); and when the parsed result has no `items`
collection, the "no items" error is raised with the ledger row already
written and the articles table untouched. -/
theorem claim_C5_ledger (results : FeedResult) (now : Nat) (db : DB) :
    (saveImportRequest results now db).1.imports
      = db.imports ++
        [{ id := db.nextImportId,
           importDate := now,
           rawContent := serializeFeed results }] ∧
    (results.items = none →
      (saveImportRequest results now db).2 = some SaveErr.noItems ∧
      (saveImportRequest results now db).1.articles = db.articles) := by
  cases hitems : results.items with
  | none =>
    rw [saveImportRequest_none_eq results now db hitems]
    exact ⟨rfl, fun _ => ⟨rfl, rfl⟩⟩
  | some items =>
    refine ⟨?_, ?_⟩
    · rcases hloop : processItems results.image now
          { recordImport db results now with
            held := (recordImport db results now).held + 1 } items
        with ⟨db3, e3⟩
      have hframe := processItems_frame results.image now items
        { recordImport db results now with
          held := (recordImport db results now).held + 1 }
      rw [hloop] at hframe
      cases e3 with
      | none =>
        rw [saveImportRequest_loop_none results now db items db3 hitems hloop]
        show db3.imports = _
        rw [hframe]
        rfl
      | some e =>
        rw [saveImportRequest_loop_err results now db items db3 e hitems hloop]
        show db3.imports = _
        rw [hframe]
        rfl
    · intro h
      simp at h

/-- Claim C6 (confirmed): re-importing an entry whose external id is
already present takes the update path, which maps every row with that
external id to a copy in which only `title`, `description`,
`publicationDate`, `link` and `mainPicture` are replaced — `id`,
`externalId` and `importDate` are untouched (second conjunct) and every row
with a different external id is returned unchanged (the `else r` branch of
the map). -/
theorem claim_C6_update_frame (img : Option String) (now : Nat) (db : DB)
    (it : Item) (gv tv dv pv lv : String)
    (hg : it.guid = some gv) (ht : it.title = some tv)
    (hd : it.contentSnippet = some dv) (hp : it.pubDate = some pv)
    (hl : it.link = some lv) (hmem : gv ∈ extIds db) :
    processItem img now db it
      = .ok { db with articles := db.articles.map (fun r =>
          if r.externalId == gv then
            { r with
              title := tv,
              description := dv,
              publicationDate := pv,
              link := lv,
              mainPicture := it.image.getD "" }
          else r) } ∧
    (db.articles.map (fun r =>
        if r.externalId == gv then
          { r with
            title := tv,
            description := dv,
            publicationDate := pv,
            link := lv,
            mainPicture := it.image.getD "" }
        else r)).map (fun r => (r.id, r.externalId, r.importDate))
      = db.articles.map (fun r => (r.id, r.externalId, r.importDate)) := by
  refine ⟨processItem_mem_eq img now db it gv tv dv pv lv hg ht hd hp hl hmem,
    ?_⟩
  rw [List.map_map]
  apply List.map_congr_left
  intro r _
  by_cases h : r.externalId = gv <;> simp [h]

/-- Concrete instance of claim C6: updating the one-row store in place. -/
theorem claim_C6_witness :
    processItem (some "F") 7 dbOneRow itemNoImage
      = .ok { dbOneRow with articles := dbOneRow.articles.map (fun r =>
          if r.externalId == "g1" then
            { r with
              title := "t1",
              description := "d1",
              publicationDate := "p1",
              link := "l1",
              mainPicture := itemNoImage.image.getD "" }
          else r) } ∧
    (dbOneRow.articles.map (fun r =>
        if r.externalId == "g1" then
          { r with
            title := "t1",
            description := "d1",
            publicationDate := "p1",
            link := "l1",
            mainPicture := itemNoImage.image.getD "" }
        else r)).map (fun r => (r.id, r.externalId, r.importDate))
      = dbOneRow.articles.map (fun r => (r.id, r.externalId, r.importDate)) :=
  claim_C6_update_frame (some "F") 7 dbOneRow itemNoImage "g1" "t1" "d1" "p1"
    "l1" rfl rfl rfl rfl rfl (by decide)

/-- Claim C3 (corrected), counterexample to the claim as stated: on the
conflict/update path the feed-level image is NOT used as a fallback.
Re-importing the entry `itemNoImage` (no entry-level image) into a store
that already has its external id, with feed-level image `"F"`, persists
`""` as the row's main picture, not `"F"` as the claim requires. -/
theorem claim_C3_counterexample :
    (processItem (some "F") 7 dbOneRow itemNoImage).map
        (fun d => d.articles.map (fun r => r.mainPicture)) = .ok [""] ∧
    ("" : String) ≠ "F" :=
  ⟨rfl, by decide⟩

/-- Claim C3 (corrected), the amended claim: the main picture persisted for
an entry is resolved as entry-level image, else feed-level image, else the
empty string on the insert path — but on the conflict/update path it is
resolved as entry-level image, else the empty string, without the
feed-level fallback (`item.image?.url ?? ""` in the update statement). -/
theorem claim_C3_amended (img : Option String) (now : Nat) (db : DB)
    (it : Item) (gv tv dv pv lv : String)
    (hg : it.guid = some gv) (ht : it.title = some tv)
    (hd : it.contentSnippet = some dv) (hp : it.pubDate = some pv)
    (hl : it.link = some lv) :
    (¬ gv ∈ extIds db →
      processItem img now db it
        = .ok { db with
            articles := db.articles ++
              [{ id := db.nextArticleId,
                 externalId := gv,
                 importDate := now,
                 title := tv,
                 description := dv,
                 publicationDate := pv,
                 link := lv,
                 mainPicture := it.image.getD (img.getD "") }],
            nextArticleId := db.nextArticleId + 1 }) ∧
    (gv ∈ extIds db →
      processItem img now db it
        = .ok { db with articles := db.articles.map (fun r =>
            if r.externalId == gv then
              { r with
                title := tv,
                description := dv,
                publicationDate := pv,
                link := lv,
                mainPicture := it.image.getD "" }
            else r) }) :=
  ⟨fun hnot => processItem_notmem_eq img now db it gv tv dv pv lv hg ht hd hp
      hl hnot,
   fun hmem => processItem_mem_eq img now db it gv tv dv pv lv hg ht hd hp hl
      hmem⟩

/-- Concrete instances of claim C3 (amended): inserting `itemNoImage` into
the empty store persists the feed-level image; updating it in the one-row
store persists the empty string. -/
theorem claim_C3_witness :
    processItem (some "F") 7 emptyDB itemNoImage
      = .ok { emptyDB with
          articles := emptyDB.articles ++
            [{ id := emptyDB.nextArticleId,
               externalId := "g1",
               importDate := 7,
               title := "t1",
               description := "d1",
               publicationDate := "p1",
               link := "l1",
               mainPicture := itemNoImage.image.getD ((some "F").getD "") }],
          nextArticleId := emptyDB.nextArticleId + 1 } ∧
    processItem (some "F") 7 dbOneRow itemNoImage
      = .ok { dbOneRow with articles := dbOneRow.articles.map (fun r =>
          if r.externalId == "g1" then
            { r with
              title := "t1",
              description := "d1",
              publicationDate := "p1",
              link := "l1",
              mainPicture := itemNoImage.image.getD "" }
          else r) } :=
  ⟨(claim_C3_amended (some "F") 7 emptyDB itemNoImage "g1" "t1" "d1" "p1" "l1"
      rfl rfl rfl rfl rfl).1 (by decide),
   (claim_C3_amended (some "F") 7 dbOneRow itemNoImage "g1" "t1" "d1" "p1" "l1"
      rfl rfl rfl rfl rfl).2 (by decide)⟩

/-- Claim C4 (code bug): the claim (and the spec's error-handling design)
says a fatal storage failure aborts the batch and is surfaced to the import
caller as an error; the code instead swallows it.  At the concrete input
`feedBad` (an entry with a NULL `title`), `saveImportRequest` throws the
fatal NOT NULL violation, yet `import` — whose un-awaited save call sits in
`try { } catch { } finally { return results }` — returns the success-shaped
parsed feed.  The spec itself flags this pattern as a known defect in its
design notes, so the code, not the claim, is wrong. -/
theorem claim_C4_code_bug :
    (saveImportRequest feedBad 3 emptyDB).2
      = some (SaveErr.pg PgError.notNullViolation) ∧
    importOp (some "https://www.lemonde.fr/rss/une.xml") "" true
        (fun _ => Except.ok ()) (Except.ok feedBad) 3 emptyDB
      = Except.ok (feedBad, (saveImportRequest feedBad 3 emptyDB).1) :=
  ⟨by decide, rfl⟩

/-- Claim C8 (code bug): the claim (and the spec's resource model) says
every storage connection is released on every exit path; the per-import
loop's `client.release()` is not in a `finally`, so when a per-entry write
throws a fatal storage error the connection stays checked out.  At the
concrete input `feedBad` the save fails and the number of held connections
ends one higher than before the call. -/
theorem claim_C8_code_bug :
    (saveImportRequest feedBad 3 emptyDB).1.held = emptyDB.held + 1 ∧
    (saveImportRequest feedBad 3 emptyDB).2 ≠ none :=
  ⟨by decide, by decide⟩

/-- Concrete instance of claim C1: importing `feedGood` into the empty
store twice leaves exactly one article row and unique external ids. -/
theorem claim_C1_witness :
    (extIds emptyDB).Nodup ∧
    (saveImportRequest feedGood 1 emptyDB).2 = none ∧
    ((saveImportRequest feedGood 2 (saveImportRequest feedGood 1 emptyDB).1).2
        = none ∧
      (saveImportRequest feedGood 2
          (saveImportRequest feedGood 1 emptyDB).1).1.articles.length
        = (saveImportRequest feedGood 1 emptyDB).1.articles.length ∧
      (extIds (saveImportRequest feedGood 1 emptyDB).1).Nodup ∧
      (extIds (saveImportRequest feedGood 2
          (saveImportRequest feedGood 1 emptyDB).1).1).Nodup) :=
  ⟨by decide, by decide,
    claim_C1_idempotent feedGood 1 2 emptyDB (by decide) (by decide)⟩

/-- Concrete instance of claim C5: saving a result with an absent `items`
collection writes the ledger row and raises `noItems` leaving articles
untouched. -/
theorem claim_C5_witness :
    (saveImportRequest noItemsFeed 4 emptyDB).1.imports
      = emptyDB.imports ++
        [{ id := emptyDB.nextImportId,
           importDate := 4,
           rawContent := serializeFeed noItemsFeed }] ∧
    ((saveImportRequest noItemsFeed 4 emptyDB).2 = some SaveErr.noItems ∧
      (saveImportRequest noItemsFeed 4 emptyDB).1.articles
        = emptyDB.articles) :=
  ⟨(claim_C5_ledger noItemsFeed 4 emptyDB).1,
   (claim_C5_ledger noItemsFeed 4 emptyDB).2 rfl⟩
